import Mathlib

/-!
Verification development for the transactional adapter in
`src/adapter/admin/transaction.mjs`.

The JavaScript classes and functions are shallowly embedded as Lean
structures and computable functions.  Database handles and transaction
handles are opaque in the source (they are only stored and compared by
identity), so they are modelled as `Nat` identity tokens.  Fallible
JavaScript code (thrown errors) is modelled with `Except JSErr`.
-/

set_option autoImplicit false

namespace Typesaurus

/-- JavaScript primitive (non-object) values: anything for which
`value && typeof value === "object"` is false along the conversion
functions.  Numbers are modelled as integers. -/
inductive Prim where
  | null
  | undef
  | bool (b : Bool)
  | num (n : Int)
  | str (s : String)
deriving DecidableEq, Repr

/-- Errors thrown by the embedded JavaScript code. -/
inductive JSErr where
  | referenceError (msg : String)
  | typeError (msg : String)
  | error (msg : String)
deriving DecidableEq, Repr

/-- `ReadCollection` from the source (constructor stores `db`,
`firestore` derived from `db`, the constant tag `"collection"`,
`name`, `path`, `transaction`).  `db` and `transaction` are identity
tokens. -/
structure ReadCollection where
  db : Nat
  name : String
  path : String
  transaction : Nat
deriving DecidableEq, Repr

/-- `WriteCollection` from the source: same stored fields as
`ReadCollection`, plus the mutation methods modelled further below. -/
structure WriteCollection where
  db : Nat
  name : String
  path : String
  transaction : Nat
deriving DecidableEq, Repr

/-- `ReadRef` from the source: `(collection, id)` with tag `"ref"`. -/
structure ReadRef where
  collection : ReadCollection
  id : String
deriving DecidableEq, Repr

/-- `WriteRef` from the source: `(collection, id)` with tag `"ref"`. -/
structure WriteRef where
  collection : WriteCollection
  id : String
deriving DecidableEq, Repr

/-- Wrapped document payloads: the values produced by `wrapData` and
stored in the `data` field of a document.  A payload is a tree of
primitives, arrays and keyed objects whose special leaves are
rehydrated references.  Both reference classes appear as variants so
that the spec sentence "rehydrated into a read Reference" and the code
behaviour (a `WriteRef` built by `pathToWriteRef`) can be compared. -/
inductive DataVal where
  | prim (p : Prim)
  | writeRef (r : WriteRef)
  | readRef (r : ReadRef)
  | arr (xs : List DataVal)
  | obj (fs : List (String × DataVal))
deriving Repr

/-- `ReadDoc` from the source: the constructor stores the tag
`"doc"`, `environment = "server"`, `ref = new ReadRef(collection, id)`
and `data`. -/
structure ReadDoc where
  ref : ReadRef
  data : DataVal
deriving Repr

/-- `WriteDoc` from the source: tag `"doc"`, `environment =
"server"`, `ref = new WriteRef(collection, id)` and `data`. -/
structure WriteDoc where
  ref : WriteRef
  data : DataVal
deriving Repr

/-- Values producible by the read phase and passed to
`readDocsToWriteDocs`: primitives, read documents, read references,
and composites (arrays / keyed objects) of these. -/
inductive RVal where
  | prim (p : Prim)
  | readDoc (d : ReadDoc)
  | readRef (r : ReadRef)
  | arr (xs : List RVal)
  | obj (fs : List (String × RVal))
deriving Repr

/-- Values produced by `readDocsToWriteDocs` and returned by the write
callback: primitives, write documents, write references, composites. -/
inductive WVal where
  | prim (p : Prim)
  | writeDoc (d : WriteDoc)
  | writeRef (r : WriteRef)
  | arr (xs : List WVal)
  | obj (fs : List (String × WVal))
deriving Repr

/-- `WriteCollection.fromRead` from the source: copies `db`,
`transaction`, `name` and `path` of a read collection into a write
collection. -/
def WriteCollection.fromRead (c : ReadCollection) : WriteCollection :=
  { db := c.db, name := c.name, path := c.path, transaction := c.transaction }

/-- `WriteDoc.fromRead` from the source: rebuilds a read document as a
write document from `doc.ref.collection`, `doc.ref.id` and
`doc.data`. -/
def WriteDoc.fromRead (doc : ReadDoc) : WriteDoc :=
  { ref := { collection := WriteCollection.fromRead doc.ref.collection, id := doc.ref.id },
    data := doc.data }

mutual

/-- `readDocsToWriteDocs` from the source.  The branch order mirrors
the source: `instanceof ReadDoc`, then `instanceof ReadRef`, then the
composite branch, then the primitive fall-through.  The `ReadRef`
branch evaluates the identifier `WriteRead`, which is not defined
anywhere in the module (the class is named `WriteRef`), so reaching it
throws a `ReferenceError`. -/
def readDocsToWriteDocs (db transaction : Nat) : RVal → Except JSErr WVal
  | .readDoc d => .ok (.writeDoc (WriteDoc.fromRead d))
  | .readRef _ => .error (.referenceError "WriteRead is not defined")
  | .arr xs =>
    match readDocsToWriteDocsList db transaction xs with
    | .ok ys => .ok (.arr ys)
    | .error e => .error e
  | .obj fs =>
    match readDocsToWriteDocsObj db transaction fs with
    | .ok gs => .ok (.obj gs)
    | .error e => .error e
  | .prim p => .ok (.prim p)

/-- Element-wise recursion of `readDocsToWriteDocs` over an array
(the `Object.entries(...).forEach` loop on an array input). -/
def readDocsToWriteDocsList (db transaction : Nat) : List RVal → Except JSErr (List WVal)
  | [] => .ok []
  | v :: vs =>
    match readDocsToWriteDocs db transaction v with
    | .error e => .error e
    | .ok w =>
      match readDocsToWriteDocsList db transaction vs with
      | .error e => .error e
      | .ok ws => .ok (w :: ws)

/-- Entry-wise recursion of `readDocsToWriteDocs` over a keyed object
(the `Object.entries(...).forEach` loop on an object input). -/
def readDocsToWriteDocsObj (db transaction : Nat) : List (String × RVal) → Except JSErr (List (String × WVal))
  | [] => .ok []
  | (k, v) :: fs =>
    match readDocsToWriteDocs db transaction v with
    | .error e => .error e
    | .ok w =>
      match readDocsToWriteDocsObj db transaction fs with
      | .error e => .error e
      | .ok ws => .ok ((k, w) :: ws)

end

/-- One step of splitting a path on the slash character: either start
a new segment or extend the current head segment. -/
def consSeg (c : Char) : List String → List String
  | [] => [String.mk [c]]
  | s :: rest => if c = '/' then "" :: s :: rest else String.mk (c :: s.data) :: rest

/-- The slash-separated segments of a path (the empty path has one
empty segment). -/
def pathSegs (path : String) : List String :=
  path.data.foldr consSeg [""]

/-- Slash-join a list of segments. -/
def joinSegs : List String → String
  | [] => ""
  | [s] => s
  | s :: rest => s ++ "/" ++ joinSegs rest

/-- Modelled from the spec: `pathRegExp` from `core.mjs` is not under
`src/`.  Per the spec, a path is matched against the grammar
`(<nestedPrefix>/)?<collectionName>/<documentId>` where the nested
prefix may contain further slash-separated segments; a path with the
wrong segment count or an empty component does not match.  On success
the captures are `(nestedPath, collectionName, documentId)`, the
nested path capture keeping its trailing slash as in the source
regular expression. -/
def pathMatch (path : String) : Option (Option String × String × String) :=
  match (pathSegs path).reverse with
  | id :: name :: rest =>
    if id = "" ∨ name = "" ∨ rest.any (fun s => s = "") then none
    else if rest.isEmpty then some (none, name, id)
    else some (some (joinSegs rest.reverse ++ "/"), name, id)
  | _ => none

/-- `pathToWriteRef` from the source: match the path against
`pathRegExp`; on failure throw `Error` naming the path; on success
build a `WriteRef` over a fresh `WriteCollection` whose name is the
collection capture and whose path is `(nestedPath || "") + name`. -/
def pathToWriteRef (db transaction : Nat) (path : String) : Except JSErr WriteRef :=
  match pathMatch path with
  | none => .error (.error ("Can't parse path " ++ path))
  | some (nestedPath, name, id) =>
    .ok { collection := { db := db, name := name, path := nestedPath.getD "" ++ name, transaction := transaction },
          id := id }

/-- Native (client-side) document data: primitives, arrays, keyed
maps, and stored reference markers carrying a document path. -/
inductive RawData where
  | prim (p : Prim)
  | refMarker (path : String)
  | arr (xs : List RawData)
  | obj (fs : List (String × RawData))
deriving Repr

mutual

/-- Modelled from the spec: `wrapData` from `core.mjs` is not under
`src/`.  Per the spec, `wrapData(db, nativeData, refResolver)`
recursively walks the native data, rehydrating every embedded
reference marker through `refResolver(db, path)` and leaving all other
values structurally unchanged. -/
def wrapData (db : Nat) (refResolver : Nat → String → Except JSErr DataVal) : RawData → Except JSErr DataVal
  | .prim p => .ok (.prim p)
  | .refMarker path => refResolver db path
  | .arr xs =>
    match wrapDataList db refResolver xs with
    | .ok ys => .ok (.arr ys)
    | .error e => .error e
  | .obj fs =>
    match wrapDataObj db refResolver fs with
    | .ok gs => .ok (.obj gs)
    | .error e => .error e

/-- Element-wise recursion of `wrapData` over an array. -/
def wrapDataList (db : Nat) (refResolver : Nat → String → Except JSErr DataVal) : List RawData → Except JSErr (List DataVal)
  | [] => .ok []
  | v :: vs =>
    match wrapData db refResolver v with
    | .error e => .error e
    | .ok w =>
      match wrapDataList db refResolver vs with
      | .error e => .error e
      | .ok ws => .ok (w :: ws)

/-- Entry-wise recursion of `wrapData` over a keyed object. -/
def wrapDataObj (db : Nat) (refResolver : Nat → String → Except JSErr DataVal) : List (String × RawData) → Except JSErr (List (String × DataVal))
  | [] => .ok []
  | (k, v) :: fs =>
    match wrapData db refResolver v with
    | .error e => .error e
    | .ok w =>
      match wrapDataObj db refResolver fs with
      | .error e => .error e
      | .ok ws => .ok ((k, w) :: ws)

end

/-- The reference resolver that `ReadCollection.get` passes to
`wrapData` in the source: `(db, path) => pathToWriteRef(db,
this.transaction, path)`. -/
def getRefResolver (transaction : Nat) (db : Nat) (path : String) : Except JSErr DataVal :=
  match pathToWriteRef db transaction path with
  | .ok r => .ok (.writeRef r)
  | .error e => .error e

/-- `ReadCollection.get` from the source.  The external client is
modelled by `store`, mapping a full document path to its snapshot
data when the document exists (`snapshot.exists`) and to `none`
otherwise; the source reads the document at `this.path + "/" + id`.
If the snapshot does not exist the result is `null`; otherwise it is a
`ReadDoc` over this collection and id whose payload is
`wrapData(this.db, snapshot.data(), resolver)`. -/
def ReadCollection.get (store : String → Option RawData) (c : ReadCollection) (id : String) : Except JSErr (Option RVal) :=
  match store (c.path ++ "/" ++ id) with
  | none => .ok none
  | some raw =>
    match wrapData c.db (getRefResolver c.transaction) raw with
    | .error e => .error e
    | .ok w => .ok (some (.readDoc { ref := { collection := c, id := id }, data := w }))

/-- A schema descriptor entry: either a static collection descriptor
(anything that is not a function) or a parameterized collection
factory, which in the source is a function carrying a `path`
attribute that, when invoked with a parent document id, returns a
nested schema descriptor.  In the source the nested descriptor cannot
depend on the id for the purposes modelled here (only the accumulated
path does), so the factory is modelled by its `path` attribute and its
nested entries. -/
inductive SchemaVal where
  | plain
  | factory (path : String) (children : List (String × SchemaVal))
deriving Repr

/-- The read-side proxy tree: each entry is either a plain read
collection handle or a callable proxy that exposes the handle
(its `get` trap) and descends into the factory on application. -/
inductive RTree where
  | col (c : ReadCollection)
  | proxy (c : ReadCollection) (factoryPath : String) (children : List (String × SchemaVal))
deriving Repr

/-- The write-side proxy tree, mirroring `RTree` with write
collection handles. -/
inductive WTree where
  | col (c : WriteCollection)
  | proxy (c : WriteCollection) (factoryPath : String) (children : List (String × SchemaVal))
deriving Repr

/-- The accumulated path of `convertDB` in the source:
`nestedPath ? nestedPath + "/" + name : name`. -/
def mkNestedPath (nestedPath : Option String) (name : String) : String :=
  match nestedPath with
  | some p => p ++ "/" ++ name
  | none => name

/-- The inner `convertDB` loop of `readDB` from the source: for each
entry build a `ReadCollection` named by the key at the accumulated
path; a function entry becomes a proxy remembering the factory. -/
def convertDBRead (rootDB transaction : Nat) : List (String × SchemaVal) → Option String → List (String × RTree)
  | [], _ => []
  | (name, collection) :: rest, nestedPath =>
    let readCollection : ReadCollection :=
      { db := rootDB, name := name, path := mkNestedPath nestedPath name, transaction := transaction }
    (name,
      match collection with
      | .plain => RTree.col readCollection
      | .factory fpath children => RTree.proxy readCollection fpath children)
      :: convertDBRead rootDB transaction rest nestedPath

/-- The `apply` trap of the read proxy from the source: invoking a
factory proxy with an id re-enters `convertDB` on the nested schema
with the accumulated path `collection.path + "/" + id`.  Applying a
non-function entry is not possible in the source tree. -/
def RTree.descend : RTree → String → Option (List (String × RTree))
  | .col _, _ => none
  | .proxy c fpath children, id =>
    some (convertDBRead c.db c.transaction children (some (fpath ++ "/" ++ id)))

/-- The inner `convertDB` loop of `writeDB` from the source, identical
to the read side except that it builds `WriteCollection` handles. -/
def convertDBWrite (rootDB transaction : Nat) : List (String × SchemaVal) → Option String → List (String × WTree)
  | [], _ => []
  | (name, collection) :: rest, nestedPath =>
    let writeCollection : WriteCollection :=
      { db := rootDB, name := name, path := mkNestedPath nestedPath name, transaction := transaction }
    (name,
      match collection with
      | .plain => WTree.col writeCollection
      | .factory fpath children => WTree.proxy writeCollection fpath children)
      :: convertDBWrite rootDB transaction rest nestedPath

/-- The `apply` trap of the write proxy from the source. -/
def WTree.descend : WTree → String → Option (List (String × WTree))
  | .col _, _ => none
  | .proxy c fpath children, id =>
    some (convertDBWrite c.db c.transaction children (some (fpath ++ "/" ++ id)))

/-- The JavaScript `delete obj.key` statement on a schema object. -/
def jsDelete (key : String) (fields : List (String × SchemaVal)) : List (String × SchemaVal) :=
  fields.filter (fun kv => kv.1 ≠ key)

/-- `readDB` from the source: copy the root schema object, delete the
reserved keys `id` and `groups` from the copy, and convert what
remains with no accumulated path.  The root db object is identified by
the token `rootDB`; `entries` are its own enumerable entries. -/
def readDB (rootDB transaction : Nat) (entries : List (String × SchemaVal)) : List (String × RTree) :=
  convertDBRead rootDB transaction (jsDelete "groups" (jsDelete "id" entries)) none

/-- `writeDB` from the source, mirroring `readDB`. -/
def writeDB (rootDB transaction : Nat) (entries : List (String × SchemaVal)) : List (String × WTree) :=
  convertDBWrite rootDB transaction (jsDelete "groups" (jsDelete "id" entries)) none

/-- A schema object on the JavaScript heap: its enumerable entries. -/
abbrev SchemaObj := List (String × SchemaVal)

/-- A heap of schema objects addressed by position, used to model the
object mutation performed by `readDB` / `writeDB` when they delete
reserved keys. -/
abbrev Heap := List SchemaObj

/-- The spread `{ ...rootDB }` from the source: allocate a fresh
object holding the same entries and return its address. -/
def spreadCopy (h : Heap) (source : Nat) : Heap × Nat :=
  (h ++ [h.getD source []], h.length)

/-- `delete obj.key` on the heap: mutate the object at `objAddr`. -/
def deleteKeyAt (h : Heap) (objAddr : Nat) (key : String) : Heap :=
  h.set objAddr (jsDelete key (h.getD objAddr []))

/-- `readDB` with the heap effects of its filtering made explicit:
spread the root object into a fresh copy, delete `id` then `groups`
on the copy, and convert the copy. -/
def readDBHeap (h : Heap) (rootAddr transaction : Nat) : Heap × List (String × RTree) :=
  let hc := spreadCopy h rootAddr
  let h2 := deleteKeyAt hc.1 hc.2 "id"
  let h3 := deleteKeyAt h2 hc.2 "groups"
  (h3, convertDBRead rootAddr transaction (h3.getD hc.2 []) none)

/-- `writeDB` with its heap effects made explicit. -/
def writeDBHeap (h : Heap) (rootAddr transaction : Nat) : Heap × List (String × WTree) :=
  let hc := spreadCopy h rootAddr
  let h2 := deleteKeyAt hc.1 hc.2 "id"
  let h3 := deleteKeyAt h2 hc.2 "groups"
  (h3, convertDBWrite rootAddr transaction (h3.getD hc.2 []) none)

mutual

/-- Modelled from the spec: `unwrapData` from `core.mjs` is not under
`src/`.  Per the spec it converts application data to the client
native form; embedded references become stored reference markers for
their document path. -/
def unwrapData : DataVal → RawData
  | .prim p => .prim p
  | .writeRef r => .refMarker (r.collection.path ++ "/" ++ r.id)
  | .readRef r => .refMarker (r.collection.path ++ "/" ++ r.id)
  | .arr xs => .arr (unwrapDataList xs)
  | .obj fs => .obj (unwrapDataObj fs)

/-- Element-wise recursion of `unwrapData` over an array. -/
def unwrapDataList : List DataVal → List RawData
  | [] => []
  | v :: vs => unwrapData v :: unwrapDataList vs

/-- Entry-wise recursion of `unwrapData` over a keyed object. -/
def unwrapDataObj : List (String × DataVal) → List (String × RawData)
  | [] => []
  | (k, v) :: fs => (k, unwrapData v) :: unwrapDataObj fs

end

/-- Modelled from the spec: `UpdateField` from `core.mjs` is not under
`src/`.  Per the spec it is a typed marker for a single partial field
mutation, carrying a field path and a value. -/
structure UpdateField where
  fieldPath : List String
  value : DataVal
deriving Repr

/-- Modelled from the spec: `updateFields` from `core.mjs` is not
under `src/`.  Per the spec it flattens an ordered sequence of Update
Field entries into a field-path to value mapping. -/
def updateFields (fields : List UpdateField) : List (String × DataVal) :=
  fields.map (fun f => (String.intercalate "." f.fieldPath, f.value))

/-- A write staged against the underlying transaction. -/
inductive StagedWrite where
  | setDoc (path id : String) (data : RawData)
  | setMerge (path id : String) (data : RawData)
  | updateDoc (path id : String) (fields : List (String × RawData))
  | deleteDoc (path id : String)
deriving Repr

/-- The staged-write state of the underlying transaction; each
`transaction.set` / `transaction.update` / `transaction.delete` call
in the source appends one entry. -/
structure TxState where
  staged : List StagedWrite
deriving Repr

/-- The argument accepted by `WriteCollection.update` in the source: a
missing value, a plain partial object, an ordered array of Update
Fields, or a single Update Field.  The source also accepts a function
that is first applied to the update helpers to produce one of these
shapes; the claims here quantify over the resolved shapes. -/
inductive UpdateArg where
  | undef
  | obj (fs : List (String × DataVal))
  | arr (fields : List UpdateField)
  | single (f : UpdateField)
deriving Repr

/-- The tail of `WriteCollection.update` from the source: `if
(!Object.keys(update).length) return;` and otherwise
`transaction.update(doc, unwrapData(firestore, update))` on the
document at `collection(this.path).doc(id)`. -/
def stageUpdate (c : WriteCollection) (id : String) (update : List (String × DataVal)) (st : TxState) : TxState :=
  if update.length = 0 then st
  else { staged := st.staged ++ [.updateDoc c.path id (unwrapDataObj update)] }

/-- `WriteCollection.update` from the source: return immediately when
`updateData` is falsy; flatten an array of Update Fields or a single
Update Field through `updateFields`; skip staging when the resolved
update mapping is empty; otherwise stage the update. -/
def WriteCollection.update (c : WriteCollection) (id : String) (data : UpdateArg) (st : TxState) : TxState :=
  match data with
  | .undef => st
  | .arr fields => stageUpdate c id (updateFields fields) st
  | .single f => stageUpdate c id (updateFields [f]) st
  | .obj fs => stageUpdate c id fs st

/-- `WriteCollection.set` from the source (with the data already
resolved from the optional helper function): stages a full overwrite. -/
def WriteCollection.set (c : WriteCollection) (id : String) (data : DataVal) (st : TxState) : TxState :=
  { staged := st.staged ++ [.setDoc c.path id (unwrapData data)] }

/-- `WriteCollection.upset` from the source: stages a merging set. -/
def WriteCollection.upset (c : WriteCollection) (id : String) (data : DataVal) (st : TxState) : TxState :=
  { staged := st.staged ++ [.setMerge c.path id (unwrapData data)] }

/-- `WriteCollection.remove` from the source: stages a deletion. -/
def WriteCollection.remove (c : WriteCollection) (id : String) (st : TxState) : TxState :=
  { staged := st.staged ++ [.deleteDoc c.path id] }

/-- Modelled from the spec: the `Collection` class from `core.mjs` is
not under `src/`.  Its constructor receives the db handle, the
collection name and the collection path and stores them. -/
structure Collection where
  db : Nat
  name : String
  path : String
deriving DecidableEq, Repr

/-- Modelled from the spec: the caller-facing `Ref` class from
`core.mjs`, holding a collection handle and a document id. -/
structure Ref where
  collection : Collection
  id : String
deriving DecidableEq, Repr

/-- Modelled from the spec: the caller-facing `Doc` class from
`core.mjs`, holding a collection handle, a document id and a data
payload. -/
structure Doc where
  collection : Collection
  id : String
  data : DataVal
deriving Repr

/-- Caller-facing values returned by the transaction: primitives,
plain documents and references, and composites of these. -/
inductive PVal where
  | prim (p : Prim)
  | doc (d : Doc)
  | ref (r : Ref)
  | arr (xs : List PVal)
  | obj (fs : List (String × PVal))
deriving Repr

mutual

/-- `writeDocsToDocs` from the source.  The `WriteDoc` branch builds
`new Doc(new Collection(db, value.ref.collection.name,
value.ref.collection.path), value.ref.id, value.data)`.  The
`WriteRef` branch evaluates `value.ref.collection`, but a `WriteRef`
instance has no `ref` property (its fields are `type`, `collection`
and `id`), so `value.ref` is `undefined` and the property access
throws a `TypeError` before the `Ref` is constructed. -/
def writeDocsToDocs (db : Nat) : WVal → Except JSErr PVal
  | .writeDoc d =>
    .ok (.doc { collection := { db := db, name := d.ref.collection.name, path := d.ref.collection.path },
                id := d.ref.id, data := d.data })
  | .writeRef _ => .error (.typeError "Cannot read properties of undefined (reading collection)")
  | .arr xs =>
    match writeDocsToDocsList db xs with
    | .ok ys => .ok (.arr ys)
    | .error e => .error e
  | .obj fs =>
    match writeDocsToDocsObj db fs with
    | .ok gs => .ok (.obj gs)
    | .error e => .error e
  | .prim p => .ok (.prim p)

/-- Element-wise recursion of `writeDocsToDocs` over an array. -/
def writeDocsToDocsList (db : Nat) : List WVal → Except JSErr (List PVal)
  | [] => .ok []
  | v :: vs =>
    match writeDocsToDocs db v with
    | .error e => .error e
    | .ok w =>
      match writeDocsToDocsList db vs with
      | .error e => .error e
      | .ok ws => .ok (w :: ws)

/-- Entry-wise recursion of `writeDocsToDocs` over a keyed object. -/
def writeDocsToDocsObj (db : Nat) : List (String × WVal) → Except JSErr (List (String × PVal))
  | [] => .ok []
  | (k, v) :: fs =>
    match writeDocsToDocs db v with
    | .error e => .error e
    | .ok w =>
      match writeDocsToDocsObj db fs with
      | .error e => .error e
      | .ok ws => .ok ((k, w) :: ws)

end

mutual

/-- All rehydrated references in a wrapped payload are write
References bound to the given transaction: true on primitives, checks
the transaction token on a `WriteRef` leaf, false on a `ReadRef` leaf,
and recurses through composites. -/
def rehydratedRefsOk (transaction : Nat) : DataVal → Bool
  | .prim _ => true
  | .writeRef r => r.collection.transaction == transaction
  | .readRef _ => false
  | .arr xs => rehydratedRefsOkList transaction xs
  | .obj fs => rehydratedRefsOkObj transaction fs

/-- Element-wise recursion of `rehydratedRefsOk` over an array. -/
def rehydratedRefsOkList (transaction : Nat) : List DataVal → Bool
  | [] => true
  | v :: vs => rehydratedRefsOk transaction v && rehydratedRefsOkList transaction vs

/-- Entry-wise recursion of `rehydratedRefsOk` over a keyed object. -/
def rehydratedRefsOkObj (transaction : Nat) : List (String × DataVal) → Bool
  | [] => true
  | (_, v) :: fs => rehydratedRefsOk transaction v && rehydratedRefsOkObj transaction fs

end

/-- Mapping a read tree entry to the corresponding write tree entry:
the handle is converted with `WriteCollection.fromRead`, the factory
data is kept. -/
def RTree.toW : RTree → WTree
  | .col c => .col (WriteCollection.fromRead c)
  | .proxy c fpath children => .proxy (WriteCollection.fromRead c) fpath children

/-- Entry-wise `RTree.toW` over a converted tree level. -/
def treeListToW : List (String × RTree) → List (String × WTree)
  | [] => []
  | (name, t) :: rest => (name, t.toW) :: treeListToW rest

/-- A concrete external store holding one document `users/u1` whose
data embeds a reference marker to `users/u2`. -/
def store0 : String → Option RawData := fun p =>
  if p = "users/u1" then some (.obj [("friend", .refMarker "users/u2")]) else none

/-- Claim C1: converting a read Document obtained in the read phase
with `readDocsToWriteDocs` yields a write Document bound to the same
transaction whose document id, data payload and collection path (as
well as collection name and db handle) equal those of the read
Document, unchanged. -/
theorem readDoc_toWrite_preserves (db transaction : Nat) (d : ReadDoc) :
    ∃ w : WriteDoc,
      readDocsToWriteDocs db transaction (.readDoc d) = .ok (.writeDoc w) ∧
      w.ref.id = d.ref.id ∧
      w.data = d.data ∧
      w.ref.collection.path = d.ref.collection.path ∧
      w.ref.collection.name = d.ref.collection.name ∧
      w.ref.collection.db = d.ref.collection.db ∧
      w.ref.collection.transaction = d.ref.collection.transaction := by
  refine ⟨WriteDoc.fromRead d, ?_, rfl, rfl, rfl, rfl, rfl, rfl⟩
  simp [readDocsToWriteDocs]

/-- Claim C2 (code bug): converting the read Reference of the
collection at path `users` with id `u1` through `readDocsToWriteDocs`
does not produce a write Reference; the `ReadRef` branch evaluates the
undefined identifier `WriteRead` (the class is named `WriteRef`) and
throws a `ReferenceError`. -/
theorem readRef_toWrite_referenceError :
    readDocsToWriteDocs 0 0 (.readRef ⟨⟨0, "users", "users", 0⟩, "u1"⟩)
      = .error (.referenceError "WriteRead is not defined") := rfl

/-- Claim C5 (code bug): converting a keyed mapping that mixes a
primitive, a read Document and a read Reference does not preserve the
structural shape; as soon as the read Reference leaf is reached the
conversion throws the `WriteRead` `ReferenceError` instead of
returning a mapping. -/
theorem mixed_toWrite_referenceError :
    readDocsToWriteDocs 0 0
      (.obj
        [("n", .prim (.num 1)),
         ("d", .readDoc ⟨⟨⟨0, "users", "users", 0⟩, "u1"⟩, .prim (.str "payload")⟩),
         ("r", .readRef ⟨⟨0, "users", "users", 0⟩, "u2"⟩)])
      = .error (.referenceError "WriteRead is not defined") := by
  simp [readDocsToWriteDocs, readDocsToWriteDocsObj, WriteDoc.fromRead, WriteCollection.fromRead]

/-- Claim C8 (code bug): on the write-phase result conversion, a write
Reference is not converted into a caller-facing `Ref`; the `WriteRef`
branch of `writeDocsToDocs` reads `value.ref.collection`, but a
`WriteRef` has no `ref` property, so the conversion throws a
`TypeError` (the same branch also omits the db handle from the
`Collection` constructor call). -/
theorem writeRef_toDoc_typeError :
    writeDocsToDocs 0 (.writeRef ⟨⟨0, "users", "users", 0⟩, "u1"⟩)
      = .error (.typeError "Cannot read properties of undefined (reading collection)") := rfl

/-- Claim C4: `pathToWriteRef` either throws an error naming the
offending path (exactly when the path does not match the grammar, in
particular whenever it has fewer than two segments) or returns a write
Reference whose collection path joins the nested prefix with the
collection name and whose id is the document id; for `a/b/c/d` the
collection is `c`, the collection path is `a/b/c` and the id is `d`. -/
theorem pathToWriteRef_spec (db transaction : Nat) :
    (pathToWriteRef db transaction "a/b/c/d"
      = .ok { collection := { db := db, name := "c", path := "a/b/c", transaction := transaction },
              id := "d" }) ∧
    (∀ p nestedPath name id, pathMatch p = some (nestedPath, name, id) →
      pathToWriteRef db transaction p
        = .ok { collection := { db := db, name := name, path := nestedPath.getD "" ++ name,
                                transaction := transaction },
                id := id }) ∧
    (∀ p, pathMatch p = none →
      pathToWriteRef db transaction p = .error (.error ("Can't parse path " ++ p))) ∧
    (∀ p, (pathSegs p).length < 2 → pathMatch p = none) := by
  refine ⟨rfl, ?_, ?_, ?_⟩
  · intro p nestedPath name id h
    simp [pathToWriteRef, h]
  · intro p h
    simp [pathToWriteRef, h]
  · intro p h
    unfold pathMatch
    split
    · rename_i id name rest heq
      have hl := congrArg List.length heq
      simp at hl
      omega
    · rfl

/-- Witness for claim C4 at concrete inputs: `a/b` parses into
collection `a` and id `b`, while the single-segment path `x` fails
with an error naming it. -/
theorem pathToWriteRef_spec_witness :
    pathMatch "a/b" = some (none, "a", "b") ∧
    pathToWriteRef 0 0 "a/b"
      = .ok { collection := { db := 0, name := "a", path := (none : Option String).getD "" ++ "a",
                              transaction := 0 },
              id := "b" } ∧
    pathMatch "x" = none ∧
    pathToWriteRef 0 0 "x" = .error (.error ("Can't parse path " ++ "x")) ∧
    (pathSegs "x").length < 2 := by
  refine ⟨rfl, (pathToWriteRef_spec 0 0).2.1 "a/b" none "a" "b" rfl, rfl,
    (pathToWriteRef_spec 0 0).2.2.1 "x" rfl, by decide⟩

/-- A successful `pathToWriteRef` resolution is bound to the
transaction it was given. -/
theorem pathToWriteRef_transaction (db transaction : Nat) (path : String) (r : WriteRef)
    (h : pathToWriteRef db transaction path = .ok r) :
    r.collection.transaction = transaction := by
  unfold pathToWriteRef at h
  split at h
  · exact Except.noConfusion h
  · simp only [Except.ok.injEq] at h
    subst h
    rfl

mutual

/-- Every reference rehydrated by `wrapData` through the resolver used
by `ReadCollection.get` is a write Reference bound to the resolver
transaction. -/
theorem wrapData_rehydrates_ok (db transaction : Nat) :
    ∀ (raw : RawData) (w : DataVal),
      wrapData db (getRefResolver transaction) raw = .ok w →
      rehydratedRefsOk transaction w = true
  | .prim p, w, h => by
    simp only [wrapData, Except.ok.injEq] at h
    subst h
    rfl
  | .refMarker path, w, h => by
    simp only [wrapData, getRefResolver] at h
    cases hr : pathToWriteRef db transaction path with
    | error e => rw [hr] at h; exact Except.noConfusion h
    | ok r =>
      rw [hr] at h
      simp only [Except.ok.injEq] at h
      subst h
      simp [rehydratedRefsOk, pathToWriteRef_transaction db transaction path r hr]
  | .arr xs, w, h => by
    simp only [wrapData] at h
    cases hx : wrapDataList db (getRefResolver transaction) xs with
    | error e => rw [hx] at h; exact Except.noConfusion h
    | ok ys =>
      rw [hx] at h
      simp only [Except.ok.injEq] at h
      subst h
      simpa [rehydratedRefsOk] using wrapDataList_rehydrates_ok db transaction xs ys hx
  | .obj fs, w, h => by
    simp only [wrapData] at h
    cases hx : wrapDataObj db (getRefResolver transaction) fs with
    | error e => rw [hx] at h; exact Except.noConfusion h
    | ok gs =>
      rw [hx] at h
      simp only [Except.ok.injEq] at h
      subst h
      simpa [rehydratedRefsOk] using wrapDataObj_rehydrates_ok db transaction fs gs hx

/-- Array version of `wrapData_rehydrates_ok`. -/
theorem wrapDataList_rehydrates_ok (db transaction : Nat) :
    ∀ (xs : List RawData) (ys : List DataVal),
      wrapDataList db (getRefResolver transaction) xs = .ok ys →
      rehydratedRefsOkList transaction ys = true
  | [], ys, h => by
    simp only [wrapDataList, Except.ok.injEq] at h
    subst h
    rfl
  | v :: vs, ys, h => by
    simp only [wrapDataList] at h
    cases hv : wrapData db (getRefResolver transaction) v with
    | error e => rw [hv] at h; exact Except.noConfusion h
    | ok w =>
      rw [hv] at h
      cases hvs : wrapDataList db (getRefResolver transaction) vs with
      | error e => rw [hvs] at h; exact Except.noConfusion h
      | ok ws =>
        rw [hvs] at h
        simp only [Except.ok.injEq] at h
        subst h
        simp [rehydratedRefsOkList, wrapData_rehydrates_ok db transaction v w hv,
          wrapDataList_rehydrates_ok db transaction vs ws hvs]

/-- Object version of `wrapData_rehydrates_ok`. -/
theorem wrapDataObj_rehydrates_ok (db transaction : Nat) :
    ∀ (fs : List (String × RawData)) (gs : List (String × DataVal)),
      wrapDataObj db (getRefResolver transaction) fs = .ok gs →
      rehydratedRefsOkObj transaction gs = true
  | [], gs, h => by
    simp only [wrapDataObj, Except.ok.injEq] at h
    subst h
    rfl
  | (k, v) :: fs, gs, h => by
    simp only [wrapDataObj] at h
    cases hv : wrapData db (getRefResolver transaction) v with
    | error e => rw [hv] at h; exact Except.noConfusion h
    | ok w =>
      rw [hv] at h
      cases hfs : wrapDataObj db (getRefResolver transaction) fs with
      | error e => rw [hfs] at h; exact Except.noConfusion h
      | ok ws =>
        rw [hfs] at h
        simp only [Except.ok.injEq] at h
        subst h
        simp [rehydratedRefsOkObj, wrapData_rehydrates_ok db transaction v w hv,
          wrapDataObj_rehydrates_ok db transaction fs ws hfs]

end

/-- Claim C3 (counterexample): reading `users/u1`, whose stored data
embeds a reference marker for `users/u2`, rehydrates the marker into a
write Reference (built by `pathToWriteRef`), not into a read Reference
as the claim states; the two are distinct shapes even over the same
collection path, id and transaction. -/
theorem get_rehydrates_write_not_read :
    ReadCollection.get store0 ⟨0, "users", "users", 7⟩ "u1"
      = .ok (some (.readDoc
          { ref := { collection := ⟨0, "users", "users", 7⟩, id := "u1" },
            data := .obj [("friend", .writeRef ⟨⟨0, "users", "users", 7⟩, "u2"⟩)] })) ∧
    DataVal.writeRef ⟨⟨0, "users", "users", 7⟩, "u2"⟩
      ≠ DataVal.readRef ⟨⟨0, "users", "users", 7⟩, "u2"⟩ := by
  refine ⟨rfl, ?_⟩
  intro h
  exact DataVal.noConfusion h

/-- Claim C3 (amended): `get` returns null exactly when the snapshot
does not exist; otherwise (when every embedded marker parses) it
returns a read Document over this collection and id whose payload is
the wrapped snapshot data, in which every embedded reference marker
has been rehydrated into a write Reference bound to the same
transaction. -/
theorem get_null_iff_and_rehydration (store : String → Option RawData) (c : ReadCollection) (id : String) :
    (ReadCollection.get store c id = .ok none ↔ store (c.path ++ "/" ++ id) = none) ∧
    (∀ raw w, store (c.path ++ "/" ++ id) = some raw →
      wrapData c.db (getRefResolver c.transaction) raw = .ok w →
      ReadCollection.get store c id
        = .ok (some (.readDoc { ref := { collection := c, id := id }, data := w })) ∧
      rehydratedRefsOk c.transaction w = true) := by
  cases hs : store (c.path ++ "/" ++ id) with
  | none =>
    refine ⟨by simp [ReadCollection.get, hs], ?_⟩
    intro raw w hraw
    exact absurd hraw (by simp)
  | some raw0 =>
    constructor
    · cases hw : wrapData c.db (getRefResolver c.transaction) raw0 with
      | error e => simp [ReadCollection.get, hs, hw]
      | ok w0 => simp [ReadCollection.get, hs, hw]
    · intro raw w hraw hw
      injection hraw with hraw
      subst hraw
      exact ⟨by simp [ReadCollection.get, hs, hw],
        wrapData_rehydrates_ok c.db c.transaction _ _ hw⟩

/-- Witness for the amended claim C3 at a concrete store: the
document `users/u1` exists and its marker for `users/u2` comes back as
a write Reference bound to transaction 7; a missing document comes
back as null. -/
theorem get_null_iff_and_rehydration_witness :
    store0 ("users" ++ "/" ++ "u1") = some (.obj [("friend", .refMarker "users/u2")]) ∧
    wrapData 0 (getRefResolver 7) (.obj [("friend", .refMarker "users/u2")])
      = .ok (.obj [("friend", .writeRef ⟨⟨0, "users", "users", 7⟩, "u2"⟩)]) ∧
    (ReadCollection.get store0 ⟨0, "users", "users", 7⟩ "u1"
      = .ok (some (.readDoc
          { ref := { collection := ⟨0, "users", "users", 7⟩, id := "u1" },
            data := .obj [("friend", .writeRef ⟨⟨0, "users", "users", 7⟩, "u2"⟩)] })) ∧
      rehydratedRefsOk 7 (.obj [("friend", .writeRef ⟨⟨0, "users", "users", 7⟩, "u2"⟩)]) = true) := by
  refine ⟨rfl, rfl, ?_⟩
  exact (get_null_iff_and_rehydration store0 ⟨0, "users", "users", 7⟩ "u1").2
    (.obj [("friend", .refMarker "users/u2")])
    (.obj [("friend", .writeRef ⟨⟨0, "users", "users", 7⟩, "u2"⟩)]) rfl rfl

/-- Claim C6: `update` with a missing value, an empty object or an
empty array resolves to an empty update set and stages no write: the
staged-write state of the transaction is returned unchanged. -/
theorem update_empty_is_noop (c : WriteCollection) (id : String) (st : TxState) :
    WriteCollection.update c id .undef st = st ∧
    WriteCollection.update c id (.obj []) st = st ∧
    WriteCollection.update c id (.arr []) st = st := by
  refine ⟨rfl, ?_, ?_⟩ <;> simp [WriteCollection.update, stageUpdate, updateFields]

/-- The read-side and write-side `convertDB` loops produce entry-wise
equal trees once read handles are mapped to write handles. -/
theorem convertDB_shape (rootDB transaction : Nat) :
    ∀ (db : List (String × SchemaVal)) (nestedPath : Option String),
      treeListToW (convertDBRead rootDB transaction db nestedPath)
        = convertDBWrite rootDB transaction db nestedPath
  | [], _ => rfl
  | (_, .plain) :: rest, np =>
    congrArg (List.cons _) (convertDB_shape rootDB transaction rest np)
  | (_, .factory _ _) :: rest, np =>
    congrArg (List.cons _) (convertDB_shape rootDB transaction rest np)

/-- Claim C7: building the read tree and the write tree from the same
schema yields collection handles with identical names and paths for
every entry, at the top level and at every nested level reached by
invoking a factory proxy with the same id: the write tree is exactly
the read tree with each read handle replaced by the write handle
carrying the same `(name, path)` (and db and transaction tokens), and
descending either tree by the same id commutes with that replacement. -/
theorem readDB_writeDB_same_shape (rootDB transaction : Nat) (entries : List (String × SchemaVal)) :
    treeListToW (readDB rootDB transaction entries) = writeDB rootDB transaction entries ∧
    (∀ (t : RTree) (id : String),
      (t.descend id).map treeListToW = t.toW.descend id) ∧
    (∀ c : ReadCollection,
      (WriteCollection.fromRead c).name = c.name ∧ (WriteCollection.fromRead c).path = c.path) := by
  refine ⟨convertDB_shape rootDB transaction _ none, ?_, fun c => ⟨rfl, rfl⟩⟩
  intro t id
  cases t with
  | col c => rfl
  | proxy c fpath children =>
    exact congrArg some (convertDB_shape c.db c.transaction children (some (fpath ++ "/" ++ id)))

/-- The keys of a converted read tree are the keys of the schema
object it was converted from. -/
theorem mem_convertDBRead_keys (rootDB transaction : Nat) :
    ∀ (db : List (String × SchemaVal)) (nestedPath : Option String) (e : String × RTree),
      e ∈ convertDBRead rootDB transaction db nestedPath → e.1 ∈ db.map Prod.fst
  | [], _, e => by simp [convertDBRead]
  | (name, collection) :: rest, np, e => by
    intro h
    cases collection <;>
      · simp only [convertDBRead, List.mem_cons] at h
        rcases h with h | h
        · subst h
          simp
        · simp [mem_convertDBRead_keys rootDB transaction rest np e h]

/-- The keys of a converted write tree are the keys of the schema
object it was converted from. -/
theorem mem_convertDBWrite_keys (rootDB transaction : Nat) :
    ∀ (db : List (String × SchemaVal)) (nestedPath : Option String) (e : String × WTree),
      e ∈ convertDBWrite rootDB transaction db nestedPath → e.1 ∈ db.map Prod.fst
  | [], _, e => by simp [convertDBWrite]
  | (name, collection) :: rest, np, e => by
    intro h
    cases collection <;>
      · simp only [convertDBWrite, List.mem_cons] at h
        rcases h with h | h
        · subst h
          simp
        · simp [mem_convertDBWrite_keys rootDB transaction rest np e h]

/-- Claim C9 (counterexample): reserved keys are not skipped inside
nested schema descriptors.  With the schema `posts` whose factory
returns entries keyed `id` and `likes`, the read tree keeps the proxy,
and invoking it with the id `p1` yields a nested tree that does
contain an entry for the reserved key `id`. -/
theorem readDB_nested_keeps_reserved :
    readDB 0 0 [("posts", .factory "posts" [("id", .plain), ("likes", .plain)])]
      = [("posts", .proxy ⟨0, "posts", "posts", 0⟩ "posts" [("id", .plain), ("likes", .plain)])] ∧
    RTree.descend (.proxy ⟨0, "posts", "posts", 0⟩ "posts" [("id", .plain), ("likes", .plain)]) "p1"
      = some [("id", .col ⟨0, "id", "posts/p1/id", 0⟩), ("likes", .col ⟨0, "likes", "posts/p1/likes", 0⟩)] :=
  ⟨rfl, rfl⟩

/-- Claim C9 (amended): the built read-side and write-side trees
contain no entry for the reserved keys `id` and `groups` at the top
level (nested schema descriptors returned by a factory are converted
without this filtering). -/
theorem readDB_writeDB_skip_reserved_top (rootDB transaction : Nat) (entries : List (String × SchemaVal)) :
    (∀ e ∈ readDB rootDB transaction entries, e.1 ≠ "id" ∧ e.1 ≠ "groups") ∧
    (∀ e ∈ writeDB rootDB transaction entries, e.1 ≠ "id" ∧ e.1 ≠ "groups") := by
  constructor
  · intro e he
    have hk := mem_convertDBRead_keys rootDB transaction _ none e he
    rcases List.mem_map.mp hk with ⟨kv, hkv, hfst⟩
    rw [← hfst]
    simp only [jsDelete, List.mem_filter, decide_eq_true_eq] at hkv
    exact ⟨hkv.1.2, hkv.2⟩
  · intro e he
    have hk := mem_convertDBWrite_keys rootDB transaction _ none e he
    rcases List.mem_map.mp hk with ⟨kv, hkv, hfst⟩
    rw [← hfst]
    simp only [jsDelete, List.mem_filter, decide_eq_true_eq] at hkv
    exact ⟨hkv.1.2, hkv.2⟩

/-- Witness for the amended claim C9: in a schema with entries `id`,
`groups` and `users`, only `users` survives at the top level of the
read tree, and the theorem applies to it. -/
theorem readDB_writeDB_skip_reserved_top_witness :
    (("users", RTree.col ⟨0, "users", "users", 0⟩)
      ∈ readDB 0 0 [("id", .plain), ("groups", .plain), ("users", .plain)]) ∧
    ("users" ≠ "id" ∧ "users" ≠ "groups") := by
  have hmem : ("users", RTree.col ⟨0, "users", "users", 0⟩)
      ∈ readDB 0 0 [("id", .plain), ("groups", .plain), ("users", .plain)] := by
    rw [show readDB 0 0 [("id", .plain), ("groups", .plain), ("users", .plain)]
        = [("users", RTree.col ⟨0, "users", "users", 0⟩)] from rfl]
    exact List.mem_singleton.mpr rfl
  exact ⟨hmem,
    (readDB_writeDB_skip_reserved_top 0 0 [("id", .plain), ("groups", .plain), ("users", .plain)]).1
      _ hmem⟩

/-- Claim C10: building a read or write tree does not mutate the db
object passed in: the reserved-key deletion happens on a spread copy,
so the object at the root address is unchanged on the heap afterwards
(and the tree built is the one obtained from its unfiltered entries). -/
theorem readDB_writeDB_no_mutation (h : Heap) (rootAddr transaction : Nat)
    (hlt : rootAddr < h.length) :
    (readDBHeap h rootAddr transaction).1[rootAddr]? = h[rootAddr]? ∧
    (writeDBHeap h rootAddr transaction).1[rootAddr]? = h[rootAddr]? ∧
    (readDBHeap h rootAddr transaction).2 = readDB rootAddr transaction (h.getD rootAddr []) ∧
    (writeDBHeap h rootAddr transaction).2 = writeDB rootAddr transaction (h.getD rootAddr []) := by
  refine ⟨?_, ?_, ?_, ?_⟩ <;>
    simp [readDBHeap, writeDBHeap, spreadCopy, deleteKeyAt, readDB, writeDB,
      List.getD_eq_getElem?_getD, List.getElem?_concat_length, List.getElem?_append_left hlt]

/-- Witness for claim C10: a heap with one schema object containing
`id`, `groups` and `users`; after building the read tree the object
at address 0 still holds all three entries. -/
theorem readDB_writeDB_no_mutation_witness :
    0 < ([[("id", SchemaVal.plain), ("groups", SchemaVal.plain), ("users", SchemaVal.plain)]] : Heap).length ∧
    (readDBHeap [[("id", SchemaVal.plain), ("groups", SchemaVal.plain), ("users", SchemaVal.plain)]] 0 0).1[0]?
      = ([[("id", SchemaVal.plain), ("groups", SchemaVal.plain), ("users", SchemaVal.plain)]] : Heap)[0]? :=
  ⟨by decide,
    (readDB_writeDB_no_mutation
      [[("id", SchemaVal.plain), ("groups", SchemaVal.plain), ("users", SchemaVal.plain)]] 0 0
      (by decide)).1⟩

end Typesaurus
